import Mathlib

/-!
Verification of the severity-labeling and train/evaluate orchestration of the
Mesh repository (src/ml/train_severity_model.py, src/ml/evaluate_model.py).

The two Python scripts are shallowly embedded:
* per-element defect-tag dictionaries become association lists with a
  `getD []` lookup mirroring Python's `dict.get(eid, [])`;
* the rule-based severity labels (inlined in each script) become the pure
  functions `trainSeverityLabel` and `evalSeverityLabel`;
* mesh-variant discovery (`find_first_meshes`) becomes a function over the
  vehicle-root directory listing, with the glob `first_mesh_*_NODE.csv` and
  the regex search `first_mesh_(\d+)_NODE.csv` modelled over lists of
  characters (the regex class `\d` is modelled as the ASCII digits `0`-`9`);
* the orchestrators `main` / `evaluate` become `trainMain` / `evalMain`,
  functions of an environment that supplies the external collaborators
  (loaders, analyzers, feature builder, classifier fit / predict) as
  fallible functions; each run returns an event trace of its filesystem
  effects together with an `Except` result, so error-propagation and
  "no artifact written" claims can be stated directly.
-/

namespace MeshSev

/-! ## Severity labeling policy -/

/-- The three severity labels are the integers 0 (LOW), 1 (MEDIUM), 2 (HIGH). -/
abbrev SeverityLabel := Nat

/-- Rule-based label as written inline in `train_severity_model.main`
(lines 91-100): HIGH (2) if `BAD_ASPECT_RATIO` or `HIGH_SKEWNESS` is among the
element's intrinsic tags or `CAD_DEVIATION_HIGH` is among its CAD tags; else
MEDIUM (1) if `BAD_TRANSITION` is among the intrinsic tags; else LOW (0). -/
def trainSeverityLabel (intrinsicTags cadTags : List String) : SeverityLabel :=
  if "BAD_ASPECT_RATIO" ∈ intrinsicTags ∨ "HIGH_SKEWNESS" ∈ intrinsicTags
      ∨ "CAD_DEVIATION_HIGH" ∈ cadTags then
    2
  else if "BAD_TRANSITION" ∈ intrinsicTags then
    1
  else
    0

/-- Rule-based label as written inline in `evaluate_model.evaluate`
(lines 57-66), transcribed separately from the training script. -/
def evalSeverityLabel (intrinsicTags cadTags : List String) : SeverityLabel :=
  if "BAD_ASPECT_RATIO" ∈ intrinsicTags ∨ "HIGH_SKEWNESS" ∈ intrinsicTags
      ∨ "CAD_DEVIATION_HIGH" ∈ cadTags then
    2
  else if "BAD_TRANSITION" ∈ intrinsicTags then
    1
  else
    0

/-! ## Defect-tag dictionaries -/

/-- Stable key of an element within a mesh. -/
abbrev ElementID := Nat

/-- A `DefectTagSet`: mapping from element id to the list of named defect
tags, as produced by the rule detectors.  Modelled as an association list,
standing for the Python dict. -/
abbrev TagMap := List (ElementID × List String)

/-- Python's `m.get(eid, [])` on the dict: the tags of `eid`, or the empty
list when `eid` is not a key. -/
def getTags (m : TagMap) (eid : ElementID) : List String :=
  (m.lookup eid).getD []

/-- The training label of one element, from the two tag dictionaries:
`trainSeverityLabel` applied to the element's looked-up tag lists. -/
def trainLabelAt (intrinsicErrors cadErrors : TagMap) (eid : ElementID) :
    SeverityLabel :=
  trainSeverityLabel (getTags intrinsicErrors eid) (getTags cadErrors eid)

/-- The evaluation ground-truth label of one element. -/
def evalLabelAt (intrinsicErrors cadErrors : TagMap) (eid : ElementID) :
    SeverityLabel :=
  evalSeverityLabel (getTags intrinsicErrors eid) (getTags cadErrors eid)

/-! ## Filenames and mesh-variant discovery

`find_first_meshes` globs `first_mesh_*_NODE.csv` in the vehicle root,
extracts the index token with `re.search(r"first_mesh_(\d+)_NODE.csv", name)`,
keeps the pair when `first_mesh_<idx>_ELEMENT.csv` exists, and sorts the
resulting pairs.  Filenames are lists of characters; the directory listing
of the vehicle root is a list of filenames in arbitrary (filesystem) order. -/

abbrev Filename := List Char

/-- The literal `first_mesh_`. -/
def fmHead : Filename := "first_mesh_".data

/-- The literal `_NODE.csv` (the glob's tail). -/
def nodeEnd : Filename := "_NODE.csv".data

/-- The literal `_NODE` (the regex's tail up to its unescaped dot). -/
def undNODE : Filename := "_NODE".data

/-- The literal `csv` (the regex's tail after its unescaped dot). -/
def csvPart : Filename := "csv".data

/-- The glob pattern `first_mesh_*_NODE.csv`: the name starts with
`first_mesh_`, ends with `_NODE.csv`, and is long enough that the two do
not overlap (`*` may match the empty string). -/
def globNodeMatch (name : Filename) : Bool :=
  fmHead.isPrefixOf name && nodeEnd.isSuffixOf name
    && decide (fmHead.length + nodeEnd.length ≤ name.length)

/-- ASCII decimal digit, the model of the regex class `\d`
(Python's `\d` also admits non-ASCII decimal digits, which the filename
patterns at hand do not use). -/
def isDigitCh (c : Char) : Bool :=
  decide ('0' ≤ c) && decide (c ≤ '9')

/-- One attempted regex match of `first_mesh_(\d+)_NODE.csv` anchored at the
start of `s`, returning the captured digit group.  The unescaped `.` of the
pattern matches any character.  Greedy `\d+` with backtracking is equivalent
to taking the maximal digit run, because the pattern continues with `_`,
which is not a digit. -/
def matchNodeAt (s : Filename) : Option Filename :=
  if fmHead.isPrefixOf s then
    let rest := s.drop fmHead.length
    let ds := rest.takeWhile isDigitCh
    let after := rest.drop ds.length
    if ds.isEmpty then none
    else if undNODE.isPrefixOf after && decide (undNODE.length + 1 ≤ after.length)
        && csvPart.isPrefixOf (after.drop (undNODE.length + 1)) then
      some ds
    else none
  else none

/-- The search `re.search(r"first_mesh_(\d+)_NODE.csv", s)`: scan left to right for the
first start position admitting a match, and return the captured group. -/
def searchNode : Filename → Option Filename
  | [] => none
  | s@(_ :: t) =>
    match matchNodeAt s with
    | some g => some g
    | none => searchNode t

/-- The element filename `f"first_mesh_{idx}_ELEMENT.csv"`. -/
def elemName (idx : Filename) : Filename :=
  fmHead ++ idx ++ "_ELEMENT.csv".data

/-- Python's ordering of `(node, elem)` tuples of paths: lexicographic, node
path first, then element path, each path compared as its text (POSIX `Path`
ordering is string ordering of the path text, i.e. code-point lexicographic,
which is the `LinearOrder` on `List Char`). -/
def lePath (p q : Filename × Filename) : Prop :=
  p.1 < q.1 ∨ (p.1 = q.1 ∧ p.2 ≤ q.2)

instance : DecidableRel lePath :=
  fun p q => inferInstanceAs (Decidable (p.1 < q.1 ∨ (p.1 = q.1 ∧ p.2 ≤ q.2)))

/-- The unsorted pair list accumulated by the `for node_csv in glob` loop of
`find_first_meshes`: over the directory listing, keep the names matching the
glob, extract the index by regex search (skipping names where the search
fails), and pair with the correspondingly-indexed element file when that
file exists in the vehicle root. -/
def rawPairs (listing : List Filename) : List (Filename × Filename) :=
  (listing.filter globNodeMatch).filterMap fun n =>
    match searchNode n with
    | none => none
    | some idx =>
      if elemName idx ∈ listing then some (n, elemName idx) else none

/-- The discovery `find_first_meshes(vehicle_root)`: the accumulated pairs, sorted
(`sorted(pairs)`, ascending Python tuple order).  Since `lePath` is a total,
transitive, antisymmetric order, the sorted list is unique, so any sorting
algorithm models Python's `sorted`. -/
def find_first_meshes (listing : List Filename) : List (Filename × Filename) :=
  (rawPairs listing).insertionSort lePath

/-! ## Orchestration environment

The orchestrators call external collaborators (mesh loader, neighbor-graph
builder, analyzers, feature builder, classifier).  These are supplied by an
environment record as fallible functions (`Except`, modelling Python
exceptions); the classifier `fit` and `predict` are modelled from the spec
as deterministic functions (the underlying library is out of scope and
assumed seed-deterministic, see §4.3 of the spec). -/

/-- The part of a loaded mesh the orchestrators use: its ordered element-id
collection (`mesh.elements` iteration order). -/
structure Mesh where
  elements : List ElementID
deriving DecidableEq

/-- Opaque payloads of collaborator results; their values are never
inspected by the orchestrators. -/
abbrev NeighborMap := Nat

/-- Intrinsic-metrics table payload, opaque to the orchestrators. -/
abbrev MetricsTable := Nat

/-- Mesh-to-CAD distance table payload, opaque to the orchestrators. -/
abbrev DistTable := Nat

/-- A per-element numeric feature vector, opaque to the orchestrators. -/
abbrev FeatureVec := List Int

/-- A fitted model artifact, opaque to the orchestrators. -/
abbrev Model := Nat

/-- An error raised by an external collaborator (a Python exception,
identified by a message). -/
abbrev CollabErr := String

/-- The `RandomForestClassifier` constructor arguments used by training. -/
structure RFParams where
  n_estimators : Nat
  max_depth : Nat
  n_jobs : Nat
  random_state : Nat
deriving DecidableEq

/-- The hyperparameters hardcoded in `train_severity_model.main`:
`n_estimators=200, max_depth=20, n_jobs=1, random_state=42`. -/
def rfParams : RFParams := ⟨200, 20, 1, 42⟩

/-- The fixed CAD node-table filename `cad_NODE.csv`. -/
def cadNodeFile : Filename := "cad_NODE.csv".data

/-- The fixed CAD element-table filename `cad_ELEMENT.csv`. -/
def cadElemFile : Filename := "cad_ELEMENT.csv".data

/-- The persisted-model filename `severity_model.pkl` (under
`models/<vehicle_id>/`). -/
def severityModelFile : Filename := "severity_model.pkl".data

/-- The node filename `f"first_mesh_{idx}_NODE.csv"` (used by the evaluation script). -/
def nodeName (idx : Filename) : Filename :=
  fmHead ++ idx ++ nodeEnd

/-- Filesystem-effect events of one orchestrator run, in order. -/
inductive Event where
  | loadCad
  | loadVariant (node elem : Filename)
  | loadModel
  | fitModel
  | makeModelDir
  | writeModel (path : Filename)
deriving DecidableEq

/-- Failures of the training orchestrator. -/
inductive TrainErr where
  | vehicleNotFound
  | noTrainingData
  | collab (e : CollabErr)
deriving DecidableEq

/-- Failures of the evaluation orchestrator. -/
inductive EvalErr where
  | modelNotFound
  | collab (e : CollabErr)
deriving DecidableEq

/-- The environment of one training run for one vehicle: the state of the
vehicle root and the external collaborators. -/
structure TrainEnv where
  vehicleRootExists : Bool
  rootListing : List Filename
  load_mesh : Filename → Filename → Except CollabErr Mesh
  build_element_neighbors : Mesh → Except CollabErr NeighborMap
  compute_intrinsic_metrics : Mesh → Except CollabErr MetricsTable
  detect_intrinsic_errors :
    Mesh → MetricsTable → NeighborMap → Except CollabErr TagMap
  compute_mesh_to_cad_distances : Mesh → Mesh → Except CollabErr DistTable
  detect_cad_related_errors : Mesh → DistTable → Except CollabErr TagMap
  build_feature_vector :
    ElementID → Mesh → MetricsTable → TagMap → TagMap →
      Except CollabErr FeatureVec
  fit : RFParams → List FeatureVec → List SeverityLabel → Model

/-- The per-element loop of `train_severity_model.main` (lines 83-100): for
each element id in the mesh's order, request a feature vector (propagating
the first failure, all-or-nothing) and append the rule-based label. -/
def buildRows (bfv : ElementID → Except CollabErr FeatureVec)
    (intr cade : TagMap) :
    List ElementID → Except CollabErr (List FeatureVec × List SeverityLabel)
  | [] => .ok ([], [])
  | eid :: rest =>
    match bfv eid with
    | .error e => .error e
    | .ok f =>
      match buildRows bfv intr cade rest with
      | .error e => .error e
      | .ok (xs, ys) => .ok (f :: xs, trainLabelAt intr cade eid :: ys)

/-- The body of the `for node_csv, elem_csv in mesh_pairs` loop of
`train_severity_model.main` (lines 69-100): load the mesh, attach its
neighbor annotation, compute metrics, the two tag dictionaries, and the
per-element rows. -/
def processMeshTrain (env : TrainEnv) (cad : Mesh) (node elem : Filename) :
    Except CollabErr (List FeatureVec × List SeverityLabel) :=
  match env.load_mesh node elem with
  | .error e => .error e
  | .ok mesh =>
    match env.build_element_neighbors mesh with
    | .error e => .error e
    | .ok nbrs =>
      match env.compute_intrinsic_metrics mesh with
      | .error e => .error e
      | .ok metrics =>
        match env.detect_intrinsic_errors mesh metrics nbrs with
        | .error e => .error e
        | .ok intr =>
          match env.compute_mesh_to_cad_distances mesh cad with
          | .error e => .error e
          | .ok dists =>
            match env.detect_cad_related_errors mesh dists with
            | .error e => .error e
            | .ok cade =>
              buildRows
                (fun eid =>
                  env.build_feature_vector eid mesh metrics intr cade)
                intr cade mesh.elements

/-- Iteration of the training loop over the discovered mesh pairs, in
sorted order, concatenating the per-mesh rows onto the running aggregate
(`X_all`, `y_all`) and stopping at the first collaborator failure.  The
trace records one `loadVariant` event per attempted mesh. -/
def processAll (env : TrainEnv) (cad : Mesh) :
    List (Filename × Filename) →
      List Event × Except CollabErr (List FeatureVec × List SeverityLabel)
  | [] => ([], .ok ([], []))
  | (node, elem) :: rest =>
    match processMeshTrain env cad node elem with
    | .error e => ([.loadVariant node elem], .error e)
    | .ok (xs, ys) =>
      match processAll env cad rest with
      | (tr, .error e) => (.loadVariant node elem :: tr, .error e)
      | (tr, .ok (xs2, ys2)) =>
        (.loadVariant node elem :: tr, .ok (xs ++ xs2, ys ++ ys2))

/-- The data produced by a successful training run: the aggregate feature
matrix, aggregate labels, and the fitted model. -/
structure TrainOut where
  X : List FeatureVec
  y : List SeverityLabel
  model : Model
deriving DecidableEq

/-- The orchestrator `train_severity_model.main(vehicle_id)`: check the vehicle root, load
the CAD mesh once, discover the first-mesh pairs, fail when none, process
all pairs into the aggregate dataset, fit the classifier with the fixed
hyperparameters, create the model directory and write the artifact.
Returns the trace of filesystem effects and the result. -/
def trainMain (env : TrainEnv) : List Event × Except TrainErr TrainOut :=
  if env.vehicleRootExists = false then
    ([], .error .vehicleNotFound)
  else
    match env.load_mesh cadNodeFile cadElemFile with
    | .error e => ([.loadCad], .error (.collab e))
    | .ok cad =>
      let pairs := find_first_meshes env.rootListing
      if pairs.isEmpty then
        ([.loadCad], .error .noTrainingData)
      else
        match processAll env cad pairs with
        | (tr, .error e) => (.loadCad :: tr, .error (.collab e))
        | (tr, .ok (xs, ys)) =>
          (.loadCad :: tr
              ++ [.fitModel, .makeModelDir, .writeModel severityModelFile],
            .ok ⟨xs, ys, env.fit rfParams xs ys⟩)

/-- The environment of one evaluation run: the persisted-model state, the
designated mesh-variant index, the collaborators, and the model's predict
function. -/
structure EvalEnv where
  modelFileExists : Bool
  savedModel : Model
  mesh_idx : Filename
  load_mesh : Filename → Filename → Except CollabErr Mesh
  build_element_neighbors : Mesh → Except CollabErr NeighborMap
  compute_intrinsic_metrics : Mesh → Except CollabErr MetricsTable
  detect_intrinsic_errors :
    Mesh → MetricsTable → NeighborMap → Except CollabErr TagMap
  compute_mesh_to_cad_distances : Mesh → Mesh → Except CollabErr DistTable
  detect_cad_related_errors : Mesh → DistTable → Except CollabErr TagMap
  build_feature_vector :
    ElementID → Mesh → MetricsTable → TagMap → TagMap →
      Except CollabErr FeatureVec
  predict : Model → List FeatureVec → List SeverityLabel

/-- The per-element loop of `evaluate_model.evaluate` (lines 50-66),
transcribed separately from the training script: features plus the
rule-based teacher labels. -/
def evalRows (bfv : ElementID → Except CollabErr FeatureVec)
    (intr cade : TagMap) :
    List ElementID → Except CollabErr (List FeatureVec × List SeverityLabel)
  | [] => .ok ([], [])
  | eid :: rest =>
    match bfv eid with
    | .error e => .error e
    | .ok f =>
      match evalRows bfv intr cade rest with
      | .error e => .error e
      | .ok (xs, ys) => .ok (f :: xs, evalLabelAt intr cade eid :: ys)

/-- The result of a successful evaluation run: features, rule-derived
ground-truth labels, and the model's predictions, row-aligned. -/
structure EvalOut where
  X : List FeatureVec
  y_true : List SeverityLabel
  y_pred : List SeverityLabel
deriving DecidableEq

/-- The pure post-load pipeline of `evaluate_model.evaluate` (lines 41-72):
neighbor annotation, metrics, tag dictionaries, rows, prediction. -/
def evalCompute (env : EvalEnv) (cad mesh : Mesh) :
    Except CollabErr EvalOut :=
  match env.build_element_neighbors mesh with
  | .error e => .error e
  | .ok nbrs =>
    match env.compute_intrinsic_metrics mesh with
    | .error e => .error e
    | .ok metrics =>
      match env.detect_intrinsic_errors mesh metrics nbrs with
      | .error e => .error e
      | .ok intr =>
        match env.compute_mesh_to_cad_distances mesh cad with
        | .error e => .error e
        | .ok dists =>
          match env.detect_cad_related_errors mesh dists with
          | .error e => .error e
          | .ok cade =>
            match evalRows
                (fun eid =>
                  env.build_feature_vector eid mesh metrics intr cade)
                intr cade mesh.elements with
            | .error e => .error e
            | .ok (xs, ys) => .ok ⟨xs, ys, env.predict env.savedModel xs⟩

/-- The orchestrator `evaluate_model.evaluate(vehicle_id, mesh_idx)`: check the persisted
model path first, load the model, load the CAD mesh and the designated
variant, run the pure pipeline.  Returns the trace of filesystem effects
and the result; evaluation writes nothing and never fits. -/
def evalMain (env : EvalEnv) : List Event × Except EvalErr EvalOut :=
  if env.modelFileExists = false then
    ([], .error .modelNotFound)
  else
    match env.load_mesh cadNodeFile cadElemFile with
    | .error e => ([.loadModel, .loadCad], .error (.collab e))
    | .ok cad =>
      match env.load_mesh (nodeName env.mesh_idx) (elemName env.mesh_idx)
          with
      | .error e =>
        ([.loadModel, .loadCad,
            .loadVariant (nodeName env.mesh_idx) (elemName env.mesh_idx)],
          .error (.collab e))
      | .ok mesh =>
        ([.loadModel, .loadCad,
            .loadVariant (nodeName env.mesh_idx) (elemName env.mesh_idx)],
          match evalCompute env cad mesh with
          | .error e => .error (.collab e)
          | .ok out => .ok out)

/-! ## Concrete demonstration environments

Small closed runs, used by the witness theorems to instantiate the general
statements. -/

/-- A two-element mesh used by the concrete runs. -/
def demoMesh : Mesh := ⟨[10, 11]⟩

/-- A training environment with one discoverable first-mesh pair and
collaborators that always succeed; element 10 carries `BAD_TRANSITION`. -/
def demoEnv : TrainEnv :=
  ⟨true,
    [cadNodeFile, "first_mesh_1_NODE.csv".data, "first_mesh_1_ELEMENT.csv".data],
    fun n _ => if n = cadNodeFile then .ok ⟨[]⟩ else .ok demoMesh,
    fun _ => .ok 0,
    fun _ => .ok 0,
    fun _ _ _ => .ok [(10, ["BAD_TRANSITION"])],
    fun _ _ => .ok 0,
    fun _ _ => .ok [],
    fun eid _ _ _ _ => .ok [Int.ofNat eid],
    fun _ _ _ => 7⟩

/-- The same environment with its vehicle root absent. -/
def demoEnvNoRoot : TrainEnv :=
  ⟨false,
    [],
    fun _ _ => .ok demoMesh,
    fun _ => .ok 0,
    fun _ => .ok 0,
    fun _ _ _ => .ok [],
    fun _ _ => .ok 0,
    fun _ _ => .ok [],
    fun eid _ _ _ _ => .ok [Int.ofNat eid],
    fun _ _ _ => 7⟩

/-- A training environment whose vehicle root exists but holds no
first-mesh files. -/
def demoEnvNoMeshes : TrainEnv :=
  ⟨true,
    [cadNodeFile, cadElemFile],
    fun _ _ => .ok demoMesh,
    fun _ => .ok 0,
    fun _ => .ok 0,
    fun _ _ _ => .ok [],
    fun _ _ => .ok 0,
    fun _ _ => .ok [],
    fun eid _ _ _ _ => .ok [Int.ofNat eid],
    fun _ _ _ => 7⟩

/-- An evaluation environment with no persisted model. -/
def demoEvalEnvNoModel : EvalEnv :=
  ⟨false, 0, "1".data,
    fun _ _ => .ok demoMesh,
    fun _ => .ok 0,
    fun _ => .ok 0,
    fun _ _ _ => .ok [],
    fun _ _ => .ok 0,
    fun _ _ => .ok [],
    fun eid _ _ _ _ => .ok [Int.ofNat eid],
    fun _ xs => xs.map fun _ => 0⟩

/-- The effect trace of the successful `demoEnv` training run. -/
def demoTrace : List Event :=
  [.loadCad,
    .loadVariant "first_mesh_1_NODE.csv".data "first_mesh_1_ELEMENT.csv".data,
    .fitModel, .makeModelDir, .writeModel severityModelFile]

/-- The output of the successful `demoEnv` training run. -/
def demoOut : TrainOut := ⟨[[10], [11]], [1, 0], 7⟩

/-! ## Theorems -/

/-- Claim C1: the severity label is a total deterministic function of the
two tag sets: HIGH (2) if `BAD_ASPECT_RATIO` or `HIGH_SKEWNESS` is among the
intrinsic tags or `CAD_DEVIATION_HIGH` is among the CAD tags (also when
`BAD_TRANSITION` is present); otherwise MEDIUM (1) if `BAD_TRANSITION` is
among the intrinsic tags; otherwise LOW (0); exactly one of the three
labels results for every input, including empty sets. -/
theorem severity_policy_correct (it ct : List String) :
    (("BAD_ASPECT_RATIO" ∈ it ∨ "HIGH_SKEWNESS" ∈ it ∨
        "CAD_DEVIATION_HIGH" ∈ ct) →
      trainSeverityLabel it ct = 2) ∧
    (("BAD_ASPECT_RATIO" ∉ it ∧ "HIGH_SKEWNESS" ∉ it ∧
        "CAD_DEVIATION_HIGH" ∉ ct ∧ "BAD_TRANSITION" ∈ it) →
      trainSeverityLabel it ct = 1) ∧
    (("BAD_ASPECT_RATIO" ∉ it ∧ "HIGH_SKEWNESS" ∉ it ∧
        "CAD_DEVIATION_HIGH" ∉ ct ∧ "BAD_TRANSITION" ∉ it) →
      trainSeverityLabel it ct = 0) ∧
    (trainSeverityLabel it ct = 0 ∨ trainSeverityLabel it ct = 1 ∨
      trainSeverityLabel it ct = 2) := by
  unfold trainSeverityLabel
  refine ⟨?_, ?_, ?_, ?_⟩ <;> split_ifs <;> simp_all <;> tauto

/-- Concrete instantiations of `severity_policy_correct`: HIGH wins over
MEDIUM when both trigger; a lone `BAD_TRANSITION` gives MEDIUM; no tags
give LOW. -/
theorem severity_policy_correct_witness :
    trainSeverityLabel ["HIGH_SKEWNESS", "BAD_TRANSITION"] [] = 2 ∧
    trainSeverityLabel ["BAD_TRANSITION"] [] = 1 ∧
    trainSeverityLabel [] [] = 0 :=
  ⟨(severity_policy_correct ["HIGH_SKEWNESS", "BAD_TRANSITION"] []).1
      (by decide),
    (severity_policy_correct ["BAD_TRANSITION"] []).2.1 (by decide),
    (severity_policy_correct [] []).2.2.1 (by decide)⟩

/-- Claim C8: the label rule inlined in the evaluation script is
extensionally equal to the one inlined in the training script, both on raw
tag lists and on the per-element tag dictionaries, so evaluation ground
truth comes from the identical rule path used for training labels; the
per-element row loops agree as well. -/
theorem eval_label_rule_equals_train_rule :
    (∀ it ct : List String, evalSeverityLabel it ct = trainSeverityLabel it ct) ∧
    (∀ (intr cade : TagMap) (eid : ElementID),
      evalLabelAt intr cade eid = trainLabelAt intr cade eid) ∧
    (∀ (bfv : ElementID → Except CollabErr FeatureVec) (intr cade : TagMap)
        (es : List ElementID),
      evalRows bfv intr cade es = buildRows bfv intr cade es) := by
  refine ⟨fun _ _ => rfl, fun _ _ _ => rfl, fun bfv intr cade es => ?_⟩
  induction es with
  | nil => rfl
  | cons eid rest ih => simp only [evalRows, buildRows, ih]; rfl

/-- Claim C2: a missing element id in either tag dictionary reads as the
empty tag list and never raises; an element absent from both dictionaries
is labeled LOW (0); row building is total in the tag lookups (it can fail
only through the feature builder). -/
theorem missing_keys_read_empty_and_low (intr cade : TagMap)
    (eid : ElementID) :
    (intr.lookup eid = none → getTags intr eid = []) ∧
    (cade.lookup eid = none → getTags cade eid = []) ∧
    (intr.lookup eid = none → cade.lookup eid = none →
      trainLabelAt intr cade eid = 0 ∧ evalLabelAt intr cade eid = 0) ∧
    (∀ (bfv : ElementID → Except CollabErr FeatureVec) (es : List ElementID),
      (∀ e ∈ es, ∃ v, bfv e = .ok v) →
      ∃ rows, buildRows bfv intr cade es = .ok rows) := by
  refine ⟨?_, ?_, ?_, ?_⟩
  · intro h; simp [getTags, h]
  · intro h; simp [getTags, h]
  · intro h1 h2
    constructor <;>
      simp [trainLabelAt, evalLabelAt, getTags, h1, h2,
        trainSeverityLabel, evalSeverityLabel]
  · intro bfv es h
    induction es with
    | nil => exact ⟨([], []), rfl⟩
    | cons e rest ih =>
      obtain ⟨v, hv⟩ := h e (List.mem_cons_self e rest)
      obtain ⟨⟨xs, ys⟩, hrows⟩ := ih fun e' he' => h e' (List.mem_cons_of_mem e he')
      exact ⟨(v :: xs, trainLabelAt intr cade e :: ys), by
        simp [buildRows, hv, hrows]⟩

/-- Concrete instantiation of `missing_keys_read_empty_and_low`: element 10
has no entry in either dictionary and is labeled LOW by both scripts. -/
theorem missing_keys_read_empty_and_low_witness :
    trainLabelAt [(5, ["BAD_TRANSITION"])] [] 10 = 0 ∧
    evalLabelAt [(5, ["BAD_TRANSITION"])] [] 10 = 0 :=
  (missing_keys_read_empty_and_low [(5, ["BAD_TRANSITION"])] [] 10).2.2.1
    (by decide) (by decide)

/-- Claim C6: when the vehicle root does not exist, training fails with the
vehicle-not-found error and an empty effect trace: no CAD or mesh data is
loaded and no model directory or artifact is created. -/
theorem vehicle_not_found_aborts (env : TrainEnv)
    (h : env.vehicleRootExists = false) :
    trainMain env = ([], .error .vehicleNotFound) := by
  simp [trainMain, h]

/-- Concrete instantiation of `vehicle_not_found_aborts` on the rootless
demonstration environment. -/
theorem vehicle_not_found_aborts_witness :
    trainMain demoEnvNoRoot = ([], .error .vehicleNotFound) :=
  vehicle_not_found_aborts demoEnvNoRoot rfl

/-- Claim C7: when the persisted model is absent, evaluation fails with the
model-not-found error and an empty effect trace, so no CAD or mesh loading
occurs; moreover no evaluation run ever fits a model, creates a model
directory, or writes any artifact. -/
theorem model_not_found_aborts (env : EvalEnv) :
    (env.modelFileExists = false →
      evalMain env = ([], .error .modelNotFound)) ∧
    Event.fitModel ∉ (evalMain env).1 ∧
    Event.makeModelDir ∉ (evalMain env).1 ∧
    (∀ p, Event.writeModel p ∉ (evalMain env).1) := by
  unfold evalMain
  refine ⟨fun h => by simp [h], ?_, ?_, ?_⟩
  all_goals
    split
    next => simp
    next =>
      split
      next => simp
      next => split <;> simp

/-- Concrete instantiation of `model_not_found_aborts` on the model-less
demonstration environment. -/
theorem model_not_found_aborts_witness :
    evalMain demoEvalEnvNoModel = ([], .error .modelNotFound) :=
  (model_not_found_aborts demoEvalEnvNoModel).1 rfl

theorem takeWhile_digits_append (idx : Filename)
    (hdig : ∀ c ∈ idx, isDigitCh c = true) :
    (idx ++ nodeEnd).takeWhile isDigitCh = idx := by
  induction idx with
  | nil => simpa using (by decide : List.takeWhile isDigitCh nodeEnd = [])
  | cons c rest ih =>
    simp only [List.cons_append, List.takeWhile_cons]
    rw [hdig c (List.mem_cons_self c rest)]
    simp [ih fun c' hc' => hdig c' (List.mem_cons_of_mem c hc')]

theorem matchNodeAt_nodeName (idx : Filename) (hne : idx ≠ [])
    (hdig : ∀ c ∈ idx, isDigitCh c = true) :
    matchNodeAt (nodeName idx) = some idx := by
  have hform : nodeName idx = fmHead ++ (idx ++ nodeEnd) := by
    simp [nodeName, List.append_assoc]
  have hpre : fmHead.isPrefixOf (fmHead ++ (idx ++ nodeEnd)) = true :=
    List.isPrefixOf_iff_prefix.mpr (List.prefix_append _ _)
  have hdrop : (fmHead ++ (idx ++ nodeEnd)).drop fmHead.length = idx ++ nodeEnd :=
    List.drop_left _ _
  have htake : (idx ++ nodeEnd).takeWhile isDigitCh = idx :=
    takeWhile_digits_append idx hdig
  have hafter : (idx ++ nodeEnd).drop idx.length = nodeEnd := List.drop_left _ _
  have htail : (undNODE.isPrefixOf nodeEnd &&
      decide (undNODE.length + 1 ≤ nodeEnd.length) &&
      csvPart.isPrefixOf (nodeEnd.drop (undNODE.length + 1))) = true := by decide
  rw [hform]
  unfold matchNodeAt
  simp only [hpre, if_true, hdrop, htake, hafter,
    List.isEmpty_eq_false.mpr hne, htail]
  simp

theorem searchNode_of_matchNodeAt {s g : Filename}
    (h : matchNodeAt s = some g) : searchNode s = some g := by
  cases s with
  | nil =>
    have : matchNodeAt [] = none := by decide
    rw [this] at h
    cases h
  | cons a t => simp [searchNode, h]

theorem globNodeMatch_nodeName (idx : Filename) :
    globNodeMatch (nodeName idx) = true := by
  unfold globNodeMatch nodeName
  rw [Bool.and_eq_true, Bool.and_eq_true]
  refine ⟨⟨?_, ?_⟩, ?_⟩
  · exact List.isPrefixOf_iff_prefix.mpr
      (by rw [List.append_assoc]; exact List.prefix_append _ _)
  · exact List.isSuffixOf_iff_suffix.mpr (List.suffix_append _ _)
  · simp [List.length_append]

theorem mem_rawPairs_of_valid (listing : List Filename) (idx : Filename)
    (hne : idx ≠ []) (hdig : ∀ c ∈ idx, isDigitCh c = true)
    (hn : nodeName idx ∈ listing) (he : elemName idx ∈ listing) :
    (nodeName idx, elemName idx) ∈ rawPairs listing := by
  unfold rawPairs
  rw [List.mem_filterMap]
  refine ⟨nodeName idx, ?_, ?_⟩
  · exact List.mem_filter.mpr ⟨hn, globNodeMatch_nodeName idx⟩
  · rw [searchNode_of_matchNodeAt (matchNodeAt_nodeName idx hne hdig)]
    simp [he]

/-- Claim C5 counterexample: the vehicle root holds the well-formed pair
`first_mesh_a_NODE.csv` / `first_mesh_a_ELEMENT.csv` whose token `a` is not
numeric-looking, yet discovery returns no pairs: the extraction regex
`first_mesh_(\d+)_NODE.csv` only accepts digit tokens. -/
theorem non_numeric_token_skipped :
    find_first_meshes
      ["first_mesh_a_NODE.csv".data, "first_mesh_a_ELEMENT.csv".data] = [] := by
  decide

/-- Claim C5 amended: for every mesh-variant file pair
`first_mesh_<idx>_NODE.csv` / `first_mesh_<idx>_ELEMENT.csv` present under
the vehicle root whose token `<idx>` is a nonempty string of digits,
training discovery finds and includes that pair; pairs whose token contains
a non-digit character are skipped by the extraction regex. -/
theorem numeric_token_pair_found (listing : List Filename) (idx : Filename)
    (hne : idx ≠ []) (hdig : ∀ c ∈ idx, isDigitCh c = true)
    (hn : nodeName idx ∈ listing) (he : elemName idx ∈ listing) :
    (nodeName idx, elemName idx) ∈ find_first_meshes listing := by
  unfold find_first_meshes
  exact (List.perm_insertionSort lePath (rawPairs listing)).mem_iff.mpr
    (mem_rawPairs_of_valid listing idx hne hdig hn he)

/-- Concrete instantiation of `numeric_token_pair_found` for token `1`. -/
theorem numeric_token_pair_found_witness :
    (nodeName "1".data, elemName "1".data) ∈
      find_first_meshes [nodeName "1".data, elemName "1".data] :=
  numeric_token_pair_found [nodeName "1".data, elemName "1".data] "1".data
    (by decide) (by decide) (List.mem_cons_self _ _)
    (List.mem_cons_of_mem _ (List.mem_cons_self _ _))

theorem lePath_total : ∀ p q, lePath p q ∨ lePath q p := by
  intro p q
  rcases lt_trichotomy p.1 q.1 with h | h | h
  · exact Or.inl (Or.inl h)
  · rcases le_total p.2 q.2 with h2 | h2
    · exact Or.inl (Or.inr ⟨h, h2⟩)
    · exact Or.inr (Or.inr ⟨h.symm, h2⟩)
  · exact Or.inr (Or.inl h)

theorem lePath_trans : ∀ p q r, lePath p q → lePath q r → lePath p r := by
  intro p q r hpq hqr
  rcases hpq with h1 | ⟨e1, l1⟩
  · rcases hqr with h2 | ⟨e2, l2⟩
    · exact Or.inl (lt_trans h1 h2)
    · exact Or.inl (e2 ▸ h1)
  · rcases hqr with h2 | ⟨e2, l2⟩
    · exact Or.inl (e1 ▸ h2)
    · exact Or.inr ⟨e1.trans e2, le_trans l1 l2⟩

theorem lePath_antisymm : ∀ p q, lePath p q → lePath q p → p = q := by
  intro p q hpq hqp
  rcases hpq with h1 | ⟨e1, l1⟩
  · rcases hqp with h2 | ⟨e2, l2⟩
    · exact absurd h2 (lt_asymm h1)
    · exact absurd (e2 ▸ h1) (lt_irrefl _)
  · rcases hqp with h2 | ⟨e2, l2⟩
    · exact absurd (e1 ▸ h2) (lt_irrefl _)
    · exact Prod.ext e1 (le_antisymm l1 l2)

theorem mem_rawPairs_iff (listing : List Filename) (p : Filename × Filename) :
    p ∈ rawPairs listing ↔
      (p.1 ∈ listing ∧ globNodeMatch p.1 = true ∧
        ∃ idx, searchNode p.1 = some idx ∧ p.2 = elemName idx ∧
          p.2 ∈ listing) := by
  unfold rawPairs
  rw [List.mem_filterMap]
  constructor
  · rintro ⟨n, hn, hf⟩
    rw [List.mem_filter] at hn
    rcases hsn : searchNode n with _ | idx
    · rw [hsn] at hf
      cases hf
    · rw [hsn] at hf
      dsimp only at hf
      by_cases he : elemName idx ∈ listing
      · rw [if_pos he] at hf
        obtain rfl := Option.some.inj hf
        exact ⟨hn.1, hn.2, idx, hsn, rfl, he⟩
      · rw [if_neg he] at hf
        cases hf
  · rintro ⟨h1, h2, idx, h3, h4, h5⟩
    refine ⟨p.1, List.mem_filter.mpr ⟨h1, h2⟩, ?_⟩
    rw [h3]
    dsimp only
    rw [if_pos (h4 ▸ h5), ← h4]

theorem rawPairs_perm {l1 l2 : List Filename} (hperm : l1.Perm l2) :
    (rawPairs l1).Perm (rawPairs l2) := by
  unfold rawPairs
  have hfun : (fun n => match searchNode n with
      | none => none
      | some idx =>
        if elemName idx ∈ l1 then some (n, elemName idx) else none) =
      (fun n => match searchNode n with
      | none => none
      | some idx =>
        if elemName idx ∈ l2 then some (n, elemName idx) else none) := by
    funext n
    rcases searchNode n with _ | idx
    · rfl
    · simp only [hperm.mem_iff]
  rw [hfun]
  exact (hperm.filter globNodeMatch).filterMap _

/-- Claim C4: discovery returns exactly the valid pairs: a pair is in the
result iff its node file is in the vehicle-root listing, matches the glob,
its index token is extracted by the regex search, and the
correspondingly-indexed element file also exists in the listing; the result
is sorted by file path (node path, then element path); it is invariant
under reordering of the directory listing, so repeated runs over unchanged
input process meshes in the same order; and training fails with the
no-training-data error when zero valid pairs are found. -/
theorem discovery_exact_sorted_deterministic :
    (∀ (listing : List Filename) (p : Filename × Filename),
      p ∈ find_first_meshes listing ↔
        (p.1 ∈ listing ∧ globNodeMatch p.1 = true ∧
          ∃ idx, searchNode p.1 = some idx ∧ p.2 = elemName idx ∧
            p.2 ∈ listing)) ∧
    (∀ listing, List.Sorted lePath (find_first_meshes listing)) ∧
    (∀ l1 l2 : List Filename, l1.Perm l2 →
      find_first_meshes l1 = find_first_meshes l2) ∧
    (∀ env : TrainEnv, env.vehicleRootExists = true →
      (∃ cad, env.load_mesh cadNodeFile cadElemFile = Except.ok cad) →
      find_first_meshes env.rootListing = [] →
      trainMain env = ([.loadCad], .error .noTrainingData)) := by
  haveI : IsTotal (Filename × Filename) lePath := ⟨lePath_total⟩
  haveI : IsTrans (Filename × Filename) lePath := ⟨lePath_trans⟩
  haveI : IsAntisymm (Filename × Filename) lePath := ⟨lePath_antisymm⟩
  refine ⟨?_, ?_, ?_, ?_⟩
  · intro listing p
    exact (List.perm_insertionSort lePath (rawPairs listing)).mem_iff.trans
      (mem_rawPairs_iff listing p)
  · intro listing
    exact List.sorted_insertionSort lePath (rawPairs listing)
  · intro l1 l2 hperm
    refine List.eq_of_perm_of_sorted ?_
      (List.sorted_insertionSort lePath (rawPairs l1))
      (List.sorted_insertionSort lePath (rawPairs l2))
    exact (List.perm_insertionSort lePath (rawPairs l1)).trans
      ((rawPairs_perm hperm).trans
        (List.perm_insertionSort lePath (rawPairs l2)).symm)
  · rintro env hroot ⟨cad, hcad⟩ hempty
    unfold trainMain
    rw [hroot]
    simp only [Bool.true_eq_false, if_false, hcad, hempty]
    rfl

/-- Concrete instantiation of `discovery_exact_sorted_deterministic`: a
vehicle root holding only the CAD tables yields zero pairs and the
no-training-data error. -/
theorem discovery_exact_sorted_deterministic_witness :
    trainMain demoEnvNoMeshes = ([.loadCad], .error .noTrainingData) :=
  discovery_exact_sorted_deterministic.2.2.2 demoEnvNoMeshes rfl
    ⟨demoMesh, rfl⟩ (by decide)

theorem buildRows_ok (bfv : ElementID → Except CollabErr FeatureVec)
    (intr cade : TagMap) :
    ∀ (es : List ElementID) (xs : List FeatureVec) (ys : List SeverityLabel),
      buildRows bfv intr cade es = .ok (xs, ys) →
      xs.length = es.length ∧ ys = es.map (trainLabelAt intr cade) ∧
      List.Forall₂ (fun e x => bfv e = Except.ok x) es xs := by
  intro es
  induction es with
  | nil =>
    intro xs ys h
    simp only [buildRows, Except.ok.injEq, Prod.mk.injEq] at h
    obtain ⟨rfl, rfl⟩ := h
    exact ⟨rfl, rfl, List.Forall₂.nil⟩
  | cons e rest ih =>
    intro xs ys h
    simp only [buildRows] at h
    rcases hb : bfv e with err | f
    · rw [hb] at h
      cases h
    · rw [hb] at h
      dsimp only at h
      rcases hr : buildRows bfv intr cade rest with err | ⟨xs', ys'⟩
      · rw [hr] at h
        cases h
      · rw [hr] at h
        dsimp only at h
        obtain ⟨rfl, rfl⟩ := Prod.mk.injEq .. |>.mp (Except.ok.inj h)
        obtain ⟨hl, hm, hf⟩ := ih xs' ys' hr
        exact ⟨by simp [hl], by simp [hm], List.Forall₂.cons hb hf⟩

theorem trainMain_ok_inv (env : TrainEnv) (tr : List Event) (out : TrainOut)
    (h : trainMain env = (tr, .ok out)) :
    ∃ cad, env.load_mesh cadNodeFile cadElemFile = .ok cad ∧
      ∃ tr2, processAll env cad (find_first_meshes env.rootListing) =
          (tr2, .ok (out.X, out.y)) ∧
        out.model = env.fit rfParams out.X out.y ∧
        tr = .loadCad :: tr2
          ++ [.fitModel, .makeModelDir, .writeModel severityModelFile] := by
  unfold trainMain at h
  split at h
  · cases h
  · rcases hcad : env.load_mesh cadNodeFile cadElemFile with e | cad <;>
      rw [hcad] at h
    · cases h
    · dsimp only at h
      split at h
      · cases h
      · rcases hpa : processAll env cad (find_first_meshes env.rootListing)
          with ⟨tr2, r2⟩
        rw [hpa] at h
        rcases r2 with e2 | ⟨xs, ys⟩
        · cases h
        · dsimp only at h
          obtain ⟨rfl, hout⟩ := Prod.mk.injEq .. |>.mp h
          obtain rfl := Except.ok.inj hout
          exact ⟨cad, rfl, tr2, hpa, rfl, rfl⟩

theorem processAll_events (env : TrainEnv) (cad : Mesh) :
    ∀ (ps : List (Filename × Filename)) (tr : List Event)
      (r : Except CollabErr (List FeatureVec × List SeverityLabel)),
      processAll env cad ps = (tr, r) →
      ∀ ev ∈ tr, ∃ n e, ev = Event.loadVariant n e := by
  intro ps
  induction ps with
  | nil =>
    intro tr r h
    obtain ⟨rfl, rfl⟩ := Prod.mk.injEq .. |>.mp h
    intro ev hev
    cases hev
  | cons p rest ih =>
    obtain ⟨node, elem⟩ := p
    intro tr r h
    simp only [processAll] at h
    rcases hm : processMeshTrain env cad node elem with e | ⟨xs, ys⟩ <;>
      rw [hm] at h
    · obtain ⟨rfl, rfl⟩ := Prod.mk.injEq .. |>.mp h
      intro ev hev
      rcases List.mem_cons.mp hev with rfl | hev
      · exact ⟨node, elem, rfl⟩
      · cases hev
    · dsimp only at h
      rcases hrest : processAll env cad rest with ⟨tr', r'⟩
      rw [hrest] at h
      rcases r' with e' | ⟨xs2, ys2⟩ <;> dsimp only at h <;>
        obtain ⟨rfl, rfl⟩ := Prod.mk.injEq .. |>.mp h <;>
        intro ev hev <;> rcases List.mem_cons.mp hev with rfl | hev
      · exact ⟨node, elem, rfl⟩
      · exact ih tr' _ hrest ev hev
      · exact ⟨node, elem, rfl⟩
      · exact ih tr' _ hrest ev hev

/-- Claim C3: the dataset built for one mesh has exactly one feature row
and one label per element, in the mesh's own element iteration order, with
feature index i and label index i referring to the same element id; a
successful training run's aggregate dataset is the in-order concatenation
of the per-mesh datasets of the discovered pairs, with no shuffling and no
deduplication. -/
theorem dataset_aligned_and_aggregated :
    (∀ (bfv : ElementID → Except CollabErr FeatureVec) (intr cade : TagMap)
        (es : List ElementID) (xs : List FeatureVec)
        (ys : List SeverityLabel),
      buildRows bfv intr cade es = .ok (xs, ys) →
        xs.length = es.length ∧ ys = es.map (trainLabelAt intr cade) ∧
        List.Forall₂ (fun e x => bfv e = Except.ok x) es xs) ∧
    (∀ (env : TrainEnv) (cad : Mesh) (node elem : Filename)
        (xs : List FeatureVec) (ys : List SeverityLabel),
      processMeshTrain env cad node elem = .ok (xs, ys) →
        ∃ mesh, env.load_mesh node elem = .ok mesh ∧
          xs.length = mesh.elements.length ∧
          ys.length = mesh.elements.length) ∧
    (∀ (env : TrainEnv) (cad : Mesh) (pairs : List (Filename × Filename))
        (tr : List Event) (X : List FeatureVec) (y : List SeverityLabel),
      processAll env cad pairs = (tr, .ok (X, y)) →
        ∃ outs : List (List FeatureVec × List SeverityLabel),
          pairs.map (fun p => processMeshTrain env cad p.1 p.2) =
            outs.map Except.ok ∧
          X = (outs.map Prod.fst).flatten ∧
          y = (outs.map Prod.snd).flatten) ∧
    (∀ (env : TrainEnv) (tr : List Event) (out : TrainOut),
      trainMain env = (tr, .ok out) →
        ∃ cad, env.load_mesh cadNodeFile cadElemFile = .ok cad ∧
          ∃ tr2, processAll env cad (find_first_meshes env.rootListing) =
            (tr2, .ok (out.X, out.y))) := by
  refine ⟨buildRows_ok, ?_, ?_, ?_⟩
  · intro env cad node elem xs ys h
    unfold processMeshTrain at h
    rcases hm : env.load_mesh node elem with e | mesh <;> rw [hm] at h
    · cases h
    · dsimp only at h
      refine ⟨mesh, rfl, ?_⟩
      rcases h1 : env.build_element_neighbors mesh with e | nbrs <;>
        rw [h1] at h
      · cases h
      dsimp only at h
      rcases h2 : env.compute_intrinsic_metrics mesh with e | metrics <;>
        rw [h2] at h
      · cases h
      dsimp only at h
      rcases h3 : env.detect_intrinsic_errors mesh metrics nbrs with e | intr <;>
        rw [h3] at h
      · cases h
      dsimp only at h
      rcases h4 : env.compute_mesh_to_cad_distances mesh cad with e | dists <;>
        rw [h4] at h
      · cases h
      dsimp only at h
      rcases h5 : env.detect_cad_related_errors mesh dists with e | cade <;>
        rw [h5] at h
      · cases h
      dsimp only at h
      obtain ⟨hl, hm2, hf⟩ := buildRows_ok _ intr cade mesh.elements xs ys h
      exact ⟨hl, by simp [hm2]⟩
  · intro env cad pairs
    induction pairs with
    | nil =>
      intro tr X y h
      obtain ⟨rfl, hxy⟩ := Prod.mk.injEq .. |>.mp h
      obtain ⟨rfl, rfl⟩ := Prod.mk.injEq .. |>.mp (Except.ok.inj hxy)
      exact ⟨[], rfl, rfl, rfl⟩
    | cons p rest ih =>
      obtain ⟨node, elem⟩ := p
      intro tr X y h
      simp only [processAll] at h
      rcases hm : processMeshTrain env cad node elem with e | ⟨xs, ys⟩ <;>
        rw [hm] at h
      · cases h
      · dsimp only at h
        rcases hrest : processAll env cad rest with ⟨tr', r'⟩
        rw [hrest] at h
        rcases r' with e' | ⟨xs2, ys2⟩ <;> dsimp only at h
        · cases h
        · obtain ⟨rfl, hxy⟩ := Prod.mk.injEq .. |>.mp h
          obtain ⟨rfl, rfl⟩ := Prod.mk.injEq .. |>.mp (Except.ok.inj hxy)
          obtain ⟨outs, ho1, ho2, ho3⟩ := ih tr' xs2 ys2 hrest
          exact ⟨(xs, ys) :: outs, by simp [hm, ho1], by simp [ho2],
            by simp [ho3]⟩
  · intro env tr out h
    obtain ⟨cad, hcad, tr2, hpa, _, _⟩ := trainMain_ok_inv env tr out h
    exact ⟨cad, hcad, tr2, hpa⟩

/-- Concrete instantiation of `dataset_aligned_and_aggregated` on the
demonstration run: two elements give two rows, labels in element order. -/
theorem dataset_aligned_and_aggregated_witness :
    ([[(10 : Int)], [(11 : Int)]] : List FeatureVec).length =
      ([10, 11] : List ElementID).length ∧
    ([1, 0] : List SeverityLabel) =
      ([10, 11] : List ElementID).map
        (trainLabelAt [(10, ["BAD_TRANSITION"])] []) ∧
    List.Forall₂
      (fun e x =>
        (fun eid => (Except.ok [Int.ofNat eid] :
            Except CollabErr FeatureVec)) e = Except.ok x)
      ([10, 11] : List ElementID) [[(10 : Int)], [(11 : Int)]] :=
  dataset_aligned_and_aggregated.1
    (fun eid => .ok [Int.ofNat eid]) [(10, ["BAD_TRANSITION"])] []
    [10, 11] [[10], [11]] [1, 0] rfl

/-- Claim C9: training is reproducible: two successful runs whose
classifier-fit function agrees (fit is modelled as a deterministic function
of the hyperparameters and the dataset, per the spec's seed-determinism
assumption for the external library) and whose aggregate datasets agree
produce the same fitted model, and each persists its artifact as the last
effect, at the fixed artifact filename; the hyperparameters passed are the
constants `n_estimators=200, max_depth=20, n_jobs=1, random_state=42`. -/
theorem training_reproducible (env1 env2 : TrainEnv)
    (tr1 tr2 : List Event) (out1 out2 : TrainOut)
    (hfit : env1.fit = env2.fit)
    (h1 : trainMain env1 = (tr1, .ok out1))
    (h2 : trainMain env2 = (tr2, .ok out2))
    (hX : out1.X = out2.X) (hy : out1.y = out2.y) :
    out1.model = out2.model ∧
    out1.model = env1.fit ⟨200, 20, 1, 42⟩ out1.X out1.y ∧
    tr1.getLast? = some (.writeModel severityModelFile) ∧
    tr2.getLast? = some (.writeModel severityModelFile) := by
  obtain ⟨cad1, -, tr1b, -, hm1, htr1⟩ := trainMain_ok_inv env1 tr1 out1 h1
  obtain ⟨cad2, -, tr2b, -, hm2, htr2⟩ := trainMain_ok_inv env2 tr2 out2 h2
  refine ⟨?_, ?_, ?_, ?_⟩
  · rw [hm1, hm2, hfit, hX, hy]
  · exact hm1
  · rw [htr1, List.getLast?_append]
    rfl
  · rw [htr2, List.getLast?_append]
    rfl

/-- Concrete instantiation of `training_reproducible`: the demonstration
run, performed twice. -/
theorem training_reproducible_witness :
    demoOut.model = demoOut.model ∧
    demoOut.model = demoEnv.fit ⟨200, 20, 1, 42⟩ demoOut.X demoOut.y ∧
    demoTrace.getLast? = some (.writeModel severityModelFile) ∧
    demoTrace.getLast? = some (.writeModel severityModelFile) :=
  training_reproducible demoEnv demoEnv demoTrace demoTrace demoOut demoOut
    rfl rfl rfl rfl rfl

/-- Claim C10: the model directory is created and the artifact written only
after the classifier fit completed: every failing run (vehicle root
missing, CAD load failure, empty discovery, collaborator or feature-builder
failure) has no directory-creation and no write event in its trace, so the
persisted model state on disk is unchanged; a successful run's trace ends
with exactly fit, then directory creation, then the single artifact write,
none of which occur earlier. -/
theorem artifact_written_only_after_fit (env : TrainEnv) (tr : List Event)
    (r : Except TrainErr TrainOut) (h : trainMain env = (tr, r)) :
    ((∃ e, r = .error e) →
      Event.makeModelDir ∉ tr ∧ ∀ p, Event.writeModel p ∉ tr) ∧
    (∀ out, r = .ok out →
      ∃ pre, tr = pre ++ [.fitModel, .makeModelDir,
          .writeModel severityModelFile] ∧
        Event.fitModel ∉ pre ∧ Event.makeModelDir ∉ pre ∧
        ∀ p, Event.writeModel p ∉ pre) := by
  unfold trainMain at h
  split at h
  · obtain ⟨rfl, rfl⟩ := Prod.mk.injEq .. |>.mp h
    exact ⟨fun _ => by simp, fun out hout => by cases hout⟩
  · rcases hcad : env.load_mesh cadNodeFile cadElemFile with e | cad <;>
      rw [hcad] at h
    · obtain ⟨rfl, rfl⟩ := Prod.mk.injEq .. |>.mp h
      exact ⟨fun _ => by simp, fun out hout => by cases hout⟩
    · dsimp only at h
      split at h
      · obtain ⟨rfl, rfl⟩ := Prod.mk.injEq .. |>.mp h
        exact ⟨fun _ => by simp, fun out hout => by cases hout⟩
      · rcases hpa : processAll env cad (find_first_meshes env.rootListing)
          with ⟨tr2, r2⟩
        rw [hpa] at h
        have hev := processAll_events env cad _ tr2 _ hpa
        rcases r2 with e2 | ⟨xs, ys⟩ <;> dsimp only at h <;>
          obtain ⟨rfl, hr⟩ := Prod.mk.injEq .. |>.mp h <;> subst hr
        · refine ⟨fun _ => ⟨?_, ?_⟩, fun out hout => by cases hout⟩
          · intro hmem
            rcases List.mem_cons.mp hmem with heq | hmem
            · cases heq
            · obtain ⟨n, e', h'⟩ := hev _ hmem
              cases h'
          · intro p hmem
            rcases List.mem_cons.mp hmem with heq | hmem
            · cases heq
            · obtain ⟨n, e', h'⟩ := hev _ hmem
              cases h'
        · refine ⟨fun he => (by rcases he with ⟨e, he⟩; cases he), ?_⟩
          intro out hout
          obtain rfl := (Except.ok.inj hout).symm
          refine ⟨.loadCad :: tr2, rfl, ?_, ?_, ?_⟩
          · intro hmem
            rcases List.mem_cons.mp hmem with heq | hmem
            · cases heq
            · obtain ⟨n, e', h'⟩ := hev _ hmem
              cases h'
          · intro hmem
            rcases List.mem_cons.mp hmem with heq | hmem
            · cases heq
            · obtain ⟨n, e', h'⟩ := hev _ hmem
              cases h'
          · intro p hmem
            rcases List.mem_cons.mp hmem with heq | hmem
            · cases heq
            · obtain ⟨n, e', h'⟩ := hev _ hmem
              cases h'

/-- Concrete instantiation of `artifact_written_only_after_fit` on the
rootless demonstration environment: the failing run creates no directory
and writes nothing. -/
theorem artifact_written_only_after_fit_witness :
    Event.makeModelDir ∉ ([] : List Event) ∧
    ∀ p, Event.writeModel p ∉ ([] : List Event) :=
  (artifact_written_only_after_fit demoEnvNoRoot [] (.error .vehicleNotFound)
      rfl).1 ⟨.vehicleNotFound, rfl⟩

end MeshSev
